import Mathlib

/-!
Verification of the AKS cluster power-state engine and the structured-output
table extractor of `vscode-aks-tools`.

The development shallowly embeds the two source files:
  * `src/commands/utils/clusters.ts` (cluster state determination, start/stop
    gating, kubeconfig retrieval, Windows node-pool version query), and
  * `src/commands/aksKubectlCommands/aksKubectlCommands.ts` (JSONPath-based
    column extraction and table assembly, and the pod-status column modifier).

JavaScript dynamic values flowing through the extractor are modelled by a
typed JSON tree `Json`; the external builtins `JSON.parse` / `JSON.stringify`
are modelled by an executable fuel-based parser `jsonParse` and a serializer
`stringify` (numbers are modelled as integers, which covers every value the
claims exercise).  A JavaScript exception in flight is modelled as the
`Except.error` branch; `undefined` is modelled as `Option.none`.
-/

/-- Typed JSON value tree (the spec's recommended tagged union). -/
inductive Json where
  | null
  | bool (b : Bool)
  | num (n : Int)
  | str (s : String)
  | arr (xs : List Json)
  | obj (kvs : List (String × Json))
deriving Repr

/-- JavaScript truthiness of a JSON value (`undefined` is handled separately
as `Option.none` by `jsOptTruthy`). -/
def jsTruthy : Json → Bool
  | .null => false
  | .bool b => b
  | .num n => !(n == 0)
  | .str s => !(s == "")
  | .arr _ => true
  | .obj _ => true

/-- Truthiness of a possibly-`undefined` value. -/
def jsOptTruthy : Option Json → Bool
  | none => false
  | some v => jsTruthy v

/-- JavaScript property read `j[k]`: `undefined` on non-objects and missing
keys; on duplicate keys the later binding wins, as after `JSON.parse`. -/
def jsonGet (j : Json) (k : String) : Option Json :=
  match j with
  | .obj kvs => kvs.foldl (fun acc kv => if kv.1 == k then some kv.2 else acc) none
  | _ => none

/-- Optional-chained property path `j?.k1?.k2?...`. -/
def jsonGetPath (j : Json) : List String → Option Json
  | [] => some j
  | k :: ks =>
    match jsonGet j k with
    | some v => jsonGetPath v ks
    | none => none

/-- String-body escaping applied by `JSON.stringify`. -/
def escapeChars : List Char → List Char
  | [] => []
  | c :: cs =>
    if c == '"' then '\\' :: '"' :: escapeChars cs
    else if c == '\\' then '\\' :: '\\' :: escapeChars cs
    else if c == '\n' then '\\' :: 'n' :: escapeChars cs
    else if c == '\t' then '\\' :: 't' :: escapeChars cs
    else if c == '\r' then '\\' :: 'r' :: escapeChars cs
    else c :: escapeChars cs

/-- `JSON.stringify` of a string value. -/
def escapeString (s : String) : String :=
  "\"" ++ String.mk (escapeChars s.data) ++ "\""

mutual

/-- Model of the `JSON.stringify` builtin on parsed JSON values. -/
def stringify : Json → String
  | .null => "null"
  | .bool b => cond b "true" "false"
  | .num n => toString n
  | .str s => escapeString s
  | .arr xs => "[" ++ stringifyElems xs ++ "]"
  | .obj kvs => "\x7b" ++ stringifyMembers kvs ++ "\x7d"

/-- Comma-separated serialization of array elements. -/
def stringifyElems : List Json → String
  | [] => ""
  | [x] => stringify x
  | x :: y :: xs => stringify x ++ "," ++ stringifyElems (y :: xs)

/-- Comma-separated serialization of object members. -/
def stringifyMembers : List (String × Json) → String
  | [] => ""
  | [kv] => escapeString kv.1 ++ ":" ++ stringify kv.2
  | kv :: m :: kvs => escapeString kv.1 ++ ":" ++ stringify kv.2 ++ "," ++ stringifyMembers (m :: kvs)

end

/-- A JavaScript exception in flight.  `JSON.parse` throws a `SyntaxError`
on malformed input; this is the only exception the extractor pipeline can
raise, and nothing in the pipeline catches it. -/
inductive JsError where
  | parseError
deriving Repr, DecidableEq

/-- JSON whitespace skipping. -/
def skipWs : List Char → List Char
  | [] => []
  | c :: cs => if c == ' ' || c == '\n' || c == '\t' || c == '\r' then skipWs cs else c :: cs

/-- Decimal digit run: returns the digits read and the rest. -/
def parseDigits : List Char → List Nat × List Char
  | [] => ([], [])
  | c :: cs =>
    if c.isDigit then
      let r := parseDigits cs
      ((c.toNat - '0'.toNat) :: r.1, r.2)
    else ([], c :: cs)

/-- Value of a digit list read most-significant first. -/
def digitsToNat : List Nat → Nat → Nat
  | [], acc => acc
  | d :: ds, acc => digitsToNat ds (acc * 10 + d)

/-- Integer literal: optional minus sign followed by at least one digit. -/
def parseNumber (cs : List Char) : Option (Json × List Char) :=
  match cs with
  | '-' :: rest =>
    match parseDigits rest with
    | ([], _) => none
    | (ds, r) => some (.num (-(digitsToNat ds 0 : Int)), r)
  | _ =>
    match parseDigits cs with
    | ([], _) => none
    | (ds, r) => some (.num (digitsToNat ds 0 : Int), r)

/-- Value of a hexadecimal digit (code points 48-57, 97-102, 65-70). -/
def hexVal (c : Char) : Option Nat :=
  let n := c.toNat
  if 48 ≤ n && n ≤ 57 then some (n - 48)
  else if 97 ≤ n && n ≤ 102 then some (n - 87)
  else if 65 ≤ n && n ≤ 70 then some (n - 55)
  else none

/-- JSON string body (after the opening quote): returns the decoded string
and the input after the closing quote. -/
def parseStringBody : List Char → List Char → Option (String × List Char)
  | acc, '"' :: rest => some (String.mk acc.reverse, rest)
  | acc, '\\' :: e :: rest =>
    if e == '"' then parseStringBody ('"' :: acc) rest
    else if e == '\\' then parseStringBody ('\\' :: acc) rest
    else if e == '/' then parseStringBody ('/' :: acc) rest
    else if e == 'n' then parseStringBody ('\n' :: acc) rest
    else if e == 't' then parseStringBody ('\t' :: acc) rest
    else if e == 'r' then parseStringBody ('\r' :: acc) rest
    else if e == 'b' then parseStringBody ('\x08' :: acc) rest
    else if e == 'f' then parseStringBody ('\x0c' :: acc) rest
    else if e == 'u' then
      match rest with
      | a :: b :: c :: d :: rest2 =>
        match hexVal a, hexVal b, hexVal c, hexVal d with
        | some ha, some hb, some hc, some hd =>
          parseStringBody (Char.ofNat (((ha * 16 + hb) * 16 + hc) * 16 + hd) :: acc) rest2
        | _, _, _, _ => none
      | _ => none
    else none
  | acc, c :: rest => parseStringBody (c :: acc) rest
  | _, [] => none

mutual

/-- Fuel-indexed recursive-descent JSON value parser (model of the
`JSON.parse` builtin; numeric literals are restricted to integers). -/
def parseVal : Nat → List Char → Option (Json × List Char)
  | 0, _ => none
  | Nat.succ f, cs =>
    match skipWs cs with
    | '"' :: rest =>
      match parseStringBody [] rest with
      | some (s, r) => some (.str s, r)
      | none => none
    | 'n' :: 'u' :: 'l' :: 'l' :: rest => some (.null, rest)
    | 't' :: 'r' :: 'u' :: 'e' :: rest => some (.bool true, rest)
    | 'f' :: 'a' :: 'l' :: 's' :: 'e' :: rest => some (.bool false, rest)
    | '[' :: rest =>
      match skipWs rest with
      | ']' :: r2 => some (.arr [], r2)
      | cs2 =>
        match parseElems f cs2 with
        | some (xs, r2) => some (.arr xs, r2)
        | none => none
    | '\x7b' :: rest =>
      match skipWs rest with
      | '\x7d' :: r2 => some (.obj [], r2)
      | cs2 =>
        match parseMembers f cs2 with
        | some (kvs, r2) => some (.obj kvs, r2)
        | none => none
    | cs2 => parseNumber cs2

/-- Array elements: one or more comma-separated values, then `]`. -/
def parseElems : Nat → List Char → Option (List Json × List Char)
  | 0, _ => none
  | Nat.succ f, cs =>
    match parseVal f cs with
    | none => none
    | some (v, rest) =>
      match skipWs rest with
      | ',' :: r2 =>
        match parseElems f r2 with
        | some (vs, r3) => some (v :: vs, r3)
        | none => none
      | ']' :: r2 => some ([v], r2)
      | _ => none

/-- Object members: one or more comma-separated `"key": value` pairs,
then the closing brace. -/
def parseMembers : Nat → List Char → Option (List (String × Json) × List Char)
  | 0, _ => none
  | Nat.succ f, cs =>
    match skipWs cs with
    | '"' :: rest =>
      match parseStringBody [] rest with
      | none => none
      | some (k, r1) =>
        match skipWs r1 with
        | ':' :: r2 =>
          match parseVal f r2 with
          | none => none
          | some (v, r3) =>
            match skipWs r3 with
            | ',' :: r4 =>
              match parseMembers f r4 with
              | some (kvs, r5) => some ((k, v) :: kvs, r5)
              | none => none
            | '\x7d' :: r4 => some ([(k, v)], r4)
            | _ => none
        | _ => none
    | _ => none

end

/-- Model of the `JSON.parse` builtin: parse the whole text or throw a
`SyntaxError`. -/
def jsonParse (text : String) : Except JsError Json :=
  match parseVal (text.length + 1) text.data with
  | some (v, rest) =>
    match skipWs rest with
    | [] => .ok v
    | _ => .error .parseError
  | none => .error .parseError

/-- One step of the JSONPath subset used by the source:
field access, wildcard `[*]`, non-negative index `[i]`,
and trailing slice `[-1:]`. -/
inductive PathStep where
  | field (key : String)
  | wildcard
  | idx (i : Nat)
  | sliceLast
deriving Repr, DecidableEq

/-- Matches produced by one path step on one value (missing fields and
out-of-range indices contribute no match, as in `jsonpath-plus`). -/
def evalStep (s : PathStep) (j : Json) : List Json :=
  match s, j with
  | .field k, v =>
    match jsonGet v k with
    | some w => [w]
    | none => []
  | .wildcard, .arr xs => xs
  | .wildcard, .obj kvs => kvs.map (·.2)
  | .wildcard, _ => []
  | .idx i, .arr xs =>
    match xs[i]? with
    | some w => [w]
    | none => []
  | .idx _, _ => []
  | .sliceLast, .arr xs =>
    match xs.getLast? with
    | some w => [w]
    | none => []
  | .sliceLast, _ => []

/-- JSONPath evaluation: the ordered list of document values matched by the
step sequence. -/
def evalPath (steps : List PathStep) (j : Json) : List Json :=
  steps.foldl (fun cur s => cur.flatMap (evalStep s)) [j]

/-! ## Cluster power-state engine (`src/commands/utils/clusters.ts`) -/

/-- The success/failure result type `Errorable<T>` of the source
(`\x7b succeeded: true, result \x7d | \x7b succeeded: false, error \x7d`). -/
inductive Errorable (α : Type) where
  | ok (result : α)
  | err (error : String)
deriving Repr

/-- The `ClusterStartStopState` string enum. -/
inductive ClusterStartStopState where
  | Started
  | Starting
  | Stopped
  | Stopping
deriving Repr, DecidableEq

/-- The string value carried by each `ClusterStartStopState` enum member. -/
def ClusterStartStopState.toStr : ClusterStartStopState → String
  | .Started => "Started"
  | .Starting => "Starting"
  | .Stopped => "Stopped"
  | .Stopping => "Stopping"

/-- An agent-pool `powerState` object (`code` is optional in the SDK type). -/
structure PowerState where
  code : Option String
deriving Repr, DecidableEq

/-- One entry of `agentPoolProfiles` (only the field the engine reads). -/
structure NodePool where
  powerState : Option PowerState
deriving Repr, DecidableEq

/-- The optional chain `nodePool.powerState?.code`. -/
def nodePoolPowerCode (np : NodePool) : Option String :=
  np.powerState.bind PowerState.code

/-- `agentPoolProfiles?.every(p)`: `undefined` (absent profile list) is falsy;
a present list uses JavaScript `Array.prototype.every`, which is vacuously
true on the empty list. -/
def agentPoolsEvery (agentPoolProfiles : Option (List NodePool)) (p : NodePool → Bool) : Bool :=
  match agentPoolProfiles with
  | some pools => pools.all p
  | none => false

/-- The cluster facts read by the engine from the SDK `ManagedCluster`
response (both fields are optional in the SDK type). -/
structure ClusterInfo where
  provisioningState : Option String
  agentPoolProfiles : Option (List NodePool)
deriving Repr

/-- The four-way decision of `determineClusterState` (source lines 126-134),
as a pure function of the cluster facts. -/
def determineState (provisioningState : Option String)
    (agentPoolProfiles : Option (List NodePool)) : ClusterStartStopState :=
  if provisioningState != some "Stopping"
      && agentPoolsEvery agentPoolProfiles (fun nodePool => nodePoolPowerCode nodePool == some "Stopped") then
    .Stopped
  else if provisioningState == some "Succeeded"
      && agentPoolsEvery agentPoolProfiles (fun nodePool => nodePoolPowerCode nodePool == some "Running") then
    .Started
  else if provisioningState == some "Stopping" then
    .Stopping
  else
    .Starting

/-- `determineClusterState(target, clusterName)`: the managed-cluster query is
an external call, passed in as its outcome; an exception is converted by the
`catch` block into the error message of source line 137. -/
def determineClusterState (clusterName : String)
    (queryOutcome : Except String ClusterInfo) : Errorable String :=
  match queryOutcome with
  | .error ex => .err ("Error invoking " ++ clusterName ++ " managed cluster: " ++ ex)
  | .ok clusterInfo =>
    .ok (determineState clusterInfo.provisioningState clusterInfo.agentPoolProfiles).toStr

/-- `startCluster(target, clusterName, clusterState)`.  The synchronous part
of the `try` block (client construction) is passed in as `clientOutcome`;
`beginStartAndWait` is fire-and-forget (not awaited), so its own outcome is
invisible here.  The boolean records whether the start request was issued. -/
def startCluster (clusterName : String) (clusterState : String)
    (clientOutcome : Except String Unit) : Errorable String × Bool :=
  match clientOutcome with
  | .error ex => (.err ("Error invoking " ++ clusterName ++ " managed cluster: " ++ ex), false)
  | .ok _ =>
    if clusterState == ClusterStartStopState.Stopped.toStr then
      (.ok "Start cluster succeeded.", true)
    else if clusterState == ClusterStartStopState.Stopping.toStr then
      (.err ("Cluster " ++ clusterName ++ " is in Stopping state wait until cluster is fully stopped."), false)
    else
      (.err ("Cluster " ++ clusterName ++ " is already Started."), false)

/-- `stopCluster(target, clusterName, clusterState)`, analogously. -/
def stopCluster (clusterName : String) (clusterState : String)
    (clientOutcome : Except String Unit) : Errorable String × Bool :=
  match clientOutcome with
  | .error ex => (.err ("Error invoking " ++ clusterName ++ " managed cluster: " ++ ex), false)
  | .ok _ =>
    if clusterState == ClusterStartStopState.Started.toStr then
      (.ok "Stop cluster succeeded.", true)
    else
      (.err ("Cluster " ++ clusterName ++ " is either Stopped or in Stopping state."), false)

/-- One entry of `CredentialResults.kubeconfigs` (both fields optional). -/
structure Kubeconfig where
  name : Option String
  value : Option String
deriving Repr

/-- The fields of `AksClusterTreeItem` the embedded operations read. -/
structure AksClusterTreeItem where
  id : String
  name : String
deriving Repr

/-- `getKubeconfigYaml(target)`.  `parsed` is the outcome of the external
`parseResource(target.id)` with the truthiness test of source line 78 folded
in (`some (resourceGroupName, name)` iff both parts are truthy); the
credentials call is external and passed in as its outcome. -/
def getKubeconfigYaml (target : AksClusterTreeItem)
    (parsed : Option (String × String))
    (credsOutcome : Except String (List Kubeconfig)) : Errorable String :=
  match parsed with
  | none => .err ("Invalid ARM id " ++ target.id)
  | some (_, name) =>
    match credsOutcome with
    | .error e => .err ("Failed to retrieve user credentials for cluster " ++ name ++ ": " ++ e)
    | .ok kubeconfigs =>
      match kubeconfigs.find? (fun kubeInfo => kubeInfo.name == some "clusterUser") with
      | none => .err ("No \"clusterUser\" kubeconfig found for cluster " ++ name ++ ".")
      | some kubeconfigCredResult =>
        match kubeconfigCredResult.value with
        | none => .err ("Empty kubeconfig for cluster " ++ name ++ ".")
        | some kubeconfig => .ok kubeconfig

/-- One entry of the agent-pool listing (the fields the version query reads;
all optional in the SDK type). -/
structure AgentPool where
  name : Option String
  osType : Option String
  currentOrchestratorVersion : Option String
deriving Repr

/-- JavaScript template interpolation of a possibly-`undefined` string. -/
def optShow : Option String → String
  | some s => s
  | none => "undefined"

/-- JavaScript truthiness of an optional string (`!x` is true for
`undefined` and for the empty string). -/
def strOptTruthy : Option String → Bool
  | none => false
  | some s => !(s == "")

/-- The per-pool loop of `getWindowsNodePoolKubernetesVersions`: first
failing pool wins, Windows pools contribute their version in order. -/
def windowsVersionsLoop (clusterName : String) : List AgentPool → Errorable (List String)
  | [] => .ok []
  | nodePool :: rest =>
    if !(strOptTruthy nodePool.osType) then
      .err ("OS type not available for node pool " ++ optShow nodePool.name
        ++ " for cluster " ++ clusterName)
    else if (nodePool.osType.getD "").toUpper == "WINDOWS" then
      if !(strOptTruthy nodePool.currentOrchestratorVersion) then
        .err ("Kubernetes version not available for node pool " ++ optShow nodePool.name
          ++ " for cluster " ++ clusterName)
      else
        match windowsVersionsLoop clusterName rest with
        | .ok vs => .ok (nodePool.currentOrchestratorVersion.getD "" :: vs)
        | .err e => .err e
    else windowsVersionsLoop clusterName rest

/-- `getWindowsNodePoolKubernetesVersions(containerClient, rg, clusterName)`:
the paged listing is external and passed in flattened, as its outcome. -/
def getWindowsNodePoolKubernetesVersions (clusterName : String)
    (poolsOutcome : Except String (List AgentPool)) : Errorable (List String) :=
  match poolsOutcome with
  | .error ex =>
    .err ("Error retrieving Windows node pool Kubernetes versions for " ++ clusterName ++ ": " ++ ex)
  | .ok pools => windowsVersionsLoop clusterName pools

/-! ## Structured output table extractor
(`src/commands/aksKubectlCommands/aksKubectlCommands.ts`) -/

/-- `getJsonPathCol(jsonPath)` applied to `cmdOutput`: parse the text
(`JSON.parse` throws on malformed input — there is no `try`/`catch` anywhere
in this pipeline, so `Except.error` here is an exception propagating to the
caller) and evaluate the path. -/
def getJsonPathCol (jsonPath : List PathStep) (cmdOutput : String) :
    Except JsError (List Json) :=
  match jsonParse cmdOutput with
  | .error e => .error e
  | .ok obj => .ok (evalPath jsonPath obj)

/-- `getJsonPathColWithModifier(jsonPath, modifier)`: map the extracted
values through the modifier.  The modifier produces a JavaScript string,
represented as a `Json.str` so that the table's later `JSON.stringify`
treats it as the string value it is. -/
def getJsonPathColWithModifier (jsonPath : List PathStep) (modifier : Json → String)
    (cmdOutput : String) : Except JsError (List Json) :=
  match getJsonPathCol jsonPath cmdOutput with
  | .error e => .error e
  | .ok cols => .ok (cols.map (fun val => Json.str (modifier val)))

/-- One column specification (`ICol`): a display name and a column getter,
here split into the path and the optional modifier it was built from. -/
structure ColSpec where
  name : String
  path : List PathStep
  modifier : Option (Json → String)

/-- The `colGetter` member of an `ICol`. -/
def colGetter (c : ColSpec) : String → Except JsError (List Json) :=
  match c.modifier with
  | none => getJsonPathCol c.path
  | some m => getJsonPathColWithModifier c.path m

/-- A table row: the JavaScript object `rowObj` keyed by column name.  A cell
holds `none` when the source stored `JSON.stringify(undefined)`, i.e.
`undefined`, there (row index beyond that column's length). -/
def Row : Type := List (String × Option String)

/-- JavaScript property assignment `rowObj[key] = val`: overwrite in place
if the key exists, else append. -/
def objSet (rowObj : List (String × Option String)) (key : String) (val : Option String) :
    List (String × Option String) :=
  if rowObj.any (fun kv => kv.1 == key) then
    rowObj.map (fun kv => if kv.1 == key then (key, val) else kv)
  else rowObj ++ [(key, val)]

/-- The inner loop of `jsonPathTableGetter`: build row `row` by assigning
`rowObj[cols[col].name] = JSON.stringify(columns[col][row])` over all
columns. -/
def buildRow (cols : List ColSpec) (columns : List (List Json)) (row : Nat) :
    List (String × Option String) :=
  (List.zip cols columns).foldl
    (fun rowObj cc => objSet rowObj cc.1.name ((cc.2[row]?).map stringify)) []

/-- The `ITable` result: rows plus headers. -/
structure ITable where
  table : List (List (String × Option String))
  headers : List String

/-- `cols.map((col) => col.colGetter(cmdOutput))`: a JavaScript exception
thrown by any getter propagates out of the whole `map`. -/
def mapColGetters (cols : List ColSpec) (cmdOutput : String) :
    Except JsError (List (List Json)) :=
  match cols with
  | [] => .ok []
  | col :: rest =>
    match colGetter col cmdOutput with
    | .error e => .error e
    | .ok column =>
      match mapColGetters rest cmdOutput with
      | .error e => .error e
      | .ok columns => .ok (column :: columns)

/-- `jsonPathTableGetter(cols)` applied to `cmdOutput`: evaluate every
column getter (an exception from any of them propagates), then loop
`row = 0 .. columns[0]?.length - 1` building rows; headers are the column
names in specification order. -/
def jsonPathTableGetter (cols : List ColSpec) (cmdOutput : String) :
    Except JsError ITable :=
  match mapColGetters cols cmdOutput with
  | .error e => .error e
  | .ok columns =>
    let numRows := match columns with
      | [] => 0
      | c0 :: _ => c0.length
    .ok { table := (List.range numRows).map (buildRow cols columns),
          headers := cols.map (fun col => col.name) }

/-- One step of the Status column modifier of `aksKubectlGetPodsCommands`
(source lines 82-93): skip container statuses whose `state.running` is
truthy; otherwise overwrite the running state with `state.waiting.reason`
when that reason is truthy. -/
def statusModifierStep (state : Json) (obj : Json) : Json :=
  if jsOptTruthy (jsonGetPath obj ["state", "running"]) then state
  else
    match jsonGetPath obj ["state", "waiting", "reason"] with
    | some reason => if jsTruthy reason then reason else state
    | none => state

/-- The Status column modifier: fold the step over the container statuses,
starting from the string `"Running"`. -/
def statusModifier (objs : List Json) : Json :=
  objs.foldl statusModifierStep (Json.str "Running")

/-- `pat` occurs as a contiguous substring of `s`. -/
def strContains (s pat : String) : Prop :=
  ∃ a b, s.data = a ++ pat.data ++ b

/-- The values of one column as a pure function of the parsed document:
path evaluation followed by the optional modifier. -/
def colValues (c : ColSpec) (j : Json) : List Json :=
  match c.modifier with
  | none => evalPath c.path j
  | some m => (evalPath c.path j).map (fun val => Json.str (m val))

/-! ## Theorems: cluster power-state engine -/

/-- C1: for every provisioningState string other than `"Stopping"` and every
non-empty node-pool sequence in which every pool's power-state code equals
`"Stopped"`, `determineState` returns `Stopped`, whatever the particular
provisioningState value is. -/
theorem determineState_all_pools_stopped (s : String) (hs : s ≠ "Stopping")
    (pools : List NodePool) (hne : pools ≠ [])
    (hall : ∀ np ∈ pools, nodePoolPowerCode np = some "Stopped") :
    determineState (some s) (some pools) = ClusterStartStopState.Stopped := by
  have h1 : (some s != some "Stopping") = true := by
    simp [bne_iff_ne]
    exact hs
  have h2 : agentPoolsEvery (some pools)
      (fun nodePool => nodePoolPowerCode nodePool == some "Stopped") = true := by
    simp [agentPoolsEvery, List.all_eq_true]
    intro np hnp
    simp [hall np hnp]
  simp [determineState, h1, h2]

/-- C1 witness: a concrete unexpected provisioningState with one stopped
pool. -/
theorem determineState_all_pools_stopped_witness :
    determineState (some "Upgrading") (some [⟨some ⟨some "Stopped"⟩⟩])
      = ClusterStartStopState.Stopped :=
  determineState_all_pools_stopped "Upgrading" (by decide)
    [⟨some ⟨some "Stopped"⟩⟩] (by simp)
    (by intro np hnp; simp at hnp; simp [hnp, nodePoolPowerCode])

/-- C2 counterexample: with `provisioningState = "Stopping"` and a pool list
whose every power code is `"Stopped"`, `determineClusterState`'s branch order
yields `Stopping`, not `Stopped` — case 1 requires
`provisioningState !== "Stopping"`, so it can never match here. -/
theorem determineState_stopping_all_stopped_cex :
    determineState (some "Stopping") (some [⟨some ⟨some "Stopped"⟩⟩])
        = ClusterStartStopState.Stopping ∧
      determineState (some "Stopping") (some [⟨some ⟨some "Stopped"⟩⟩])
        ≠ ClusterStartStopState.Stopped := by
  constructor
  · rfl
  · decide

/-- C2 amended: whenever `provisioningState = "Stopping"`, `determineState`
returns `Stopping`, for every node-pool input — all-stopped pools included;
case 1 is unreachable then, because it requires
`provisioningState !== "Stopping"`. -/
theorem determineState_stopping (agentPoolProfiles : Option (List NodePool)) :
    determineState (some "Stopping") agentPoolProfiles = ClusterStartStopState.Stopping := by
  simp [determineState]

/-- C10: for the empty node-pool sequence and every provisioningState other
than `"Stopping"`, the universal quantification of case 1 holds vacuously
(`[].every(...) === true`), so `determineState` returns `Stopped` and the
`Starting` fallback is not reached. -/
theorem determineState_empty_pools (s : String) (hs : s ≠ "Stopping") :
    determineState (some s) (some []) = ClusterStartStopState.Stopped := by
  have h1 : (some s != some "Stopping") = true := by
    simp [bne_iff_ne]
    exact hs
  simp [determineState, h1, agentPoolsEvery]

/-- C10 witness: empty pool list under provisioningState `"Succeeded"`. -/
theorem determineState_empty_pools_witness :
    determineState (some "Succeeded") (some []) = ClusterStartStopState.Stopped :=
  determineState_empty_pools "Succeeded" (by decide)

/-- C6: `startCluster` issues the start request and succeeds exactly from
`Stopped`; from `Stopping` it fails with the invalid-transition message
("wait until cluster is fully stopped"); from `Starting` or `Started` it
fails with the already-in-state message ("already Started").  The boolean
component records whether the external start request was issued. -/
theorem startCluster_gating (clusterName : String) :
    startCluster clusterName ClusterStartStopState.Stopped.toStr (.ok ())
        = (.ok "Start cluster succeeded.", true) ∧
      startCluster clusterName ClusterStartStopState.Stopping.toStr (.ok ())
        = (.err ("Cluster " ++ clusterName
            ++ " is in Stopping state wait until cluster is fully stopped."), false) ∧
      startCluster clusterName ClusterStartStopState.Starting.toStr (.ok ())
        = (.err ("Cluster " ++ clusterName ++ " is already Started."), false) ∧
      startCluster clusterName ClusterStartStopState.Started.toStr (.ok ())
        = (.err ("Cluster " ++ clusterName ++ " is already Started."), false) := by
  refine ⟨rfl, ?_, ?_, ?_⟩ <;> simp [startCluster, ClusterStartStopState.toStr]

/-- C7: `stopCluster` issues the stop request and succeeds exactly from
`Started`; from each other state it fails with the message that the cluster
is (either) stopped or stopping. -/
theorem stopCluster_gating (clusterName : String) :
    stopCluster clusterName ClusterStartStopState.Started.toStr (.ok ())
        = (.ok "Stop cluster succeeded.", true) ∧
      stopCluster clusterName ClusterStartStopState.Stopped.toStr (.ok ())
        = (.err ("Cluster " ++ clusterName ++ " is either Stopped or in Stopping state."), false) ∧
      stopCluster clusterName ClusterStartStopState.Stopping.toStr (.ok ())
        = (.err ("Cluster " ++ clusterName ++ " is either Stopped or in Stopping state."), false) ∧
      stopCluster clusterName ClusterStartStopState.Starting.toStr (.ok ())
        = (.err ("Cluster " ++ clusterName ++ " is either Stopped or in Stopping state."), false) := by
  refine ⟨rfl, ?_, ?_, ?_⟩ <;> simp [stopCluster, ClusterStartStopState.toStr]

/-- A string contains every middle factor of an append. -/
theorem strContains_of_append (a pat b : String) : strContains (a ++ pat ++ b) pat :=
  ⟨a.data, b.data, by simp [String.data_append]⟩

/-- A string contains its trailing factor. -/
theorem strContains_of_append_right (a pat : String) : strContains (a ++ pat) pat :=
  ⟨a.data, [], by simp [String.data_append]⟩

/-- A string contains the second factor of a four-part append. -/
theorem strContains_mid4 (a pat b c : String) : strContains (a ++ pat ++ b ++ c) pat :=
  ⟨a.data, b.data ++ c.data, by simp [String.data_append]⟩

/-- Windows node-pool version loop: every failure message it produces
contains the cluster name. -/
theorem windowsVersionsLoop_err_contains (clusterName : String) (pools : List AgentPool)
    (msg : String) (h : windowsVersionsLoop clusterName pools = .err msg) :
    strContains msg clusterName := by
  induction pools with
  | nil => simp [windowsVersionsLoop] at h
  | cons p rest ih =>
    rw [windowsVersionsLoop] at h
    split at h
    · rw [Errorable.err.injEq] at h
      subst h
      exact strContains_of_append_right _ _
    · split at h
      · split at h
        · rw [Errorable.err.injEq] at h
          subst h
          exact strContains_of_append_right _ _
        · split at h
          · exact absurd h (by simp)
          · rename_i heq
            rw [Errorable.err.injEq] at h
            subst h
            exact ih heq
      · exact ih h

/-- C9 amended: every failure of the five core operations carries the cluster
name in its error message — except the invalid-ARM-id failure of kubeconfig
retrieval, which happens before a cluster name is even parsed and carries the
raw ARM id instead — and every failure produced from an underlying exception
also carries that exception's text. -/
theorem coreErrorMessages :
    (∀ clusterName queryOutcome msg,
        determineClusterState clusterName queryOutcome = .err msg →
        strContains msg clusterName ∧
          ∀ ex, queryOutcome = .error ex → strContains msg ex) ∧
    (∀ clusterName clusterState clientOutcome msg,
        (startCluster clusterName clusterState clientOutcome).1 = .err msg →
        strContains msg clusterName ∧
          ∀ ex, clientOutcome = .error ex → strContains msg ex) ∧
    (∀ clusterName clusterState clientOutcome msg,
        (stopCluster clusterName clusterState clientOutcome).1 = .err msg →
        strContains msg clusterName ∧
          ∀ ex, clientOutcome = .error ex → strContains msg ex) ∧
    (∀ clusterName poolsOutcome msg,
        getWindowsNodePoolKubernetesVersions clusterName poolsOutcome = .err msg →
        strContains msg clusterName ∧
          ∀ ex, poolsOutcome = .error ex → strContains msg ex) ∧
    (∀ target parsed credsOutcome msg,
        getKubeconfigYaml target parsed credsOutcome = .err msg →
        (parsed = none → msg = "Invalid ARM id " ++ target.id) ∧
        (∀ resourceGroupName clusterName, parsed = some (resourceGroupName, clusterName) →
          strContains msg clusterName ∧
            ∀ ex, credsOutcome = .error ex → strContains msg ex)) := by
  refine ⟨?_, ?_, ?_, ?_, ?_⟩
  · intro clusterName queryOutcome msg h
    cases queryOutcome with
    | error ex =>
      rw [determineClusterState, Errorable.err.injEq] at h
      subst h
      exact ⟨strContains_mid4 _ _ _ _, fun e he => by
        cases he
        exact strContains_of_append_right _ _⟩
    | ok info => exact absurd h (by simp [determineClusterState])
  · intro clusterName clusterState clientOutcome msg h
    cases clientOutcome with
    | error ex =>
      rw [startCluster] at h
      rw [Errorable.err.injEq] at h
      subst h
      exact ⟨strContains_mid4 _ _ _ _, fun e he => by
        cases he
        exact strContains_of_append_right _ _⟩
    | ok u =>
      rw [startCluster] at h
      refine ⟨?_, fun e he => by cases he⟩
      split at h
      · exact absurd h (by simp)
      · split at h
        · rw [Errorable.err.injEq] at h
          subst h
          exact strContains_of_append _ _ _
        · rw [Errorable.err.injEq] at h
          subst h
          exact strContains_of_append _ _ _
  · intro clusterName clusterState clientOutcome msg h
    cases clientOutcome with
    | error ex =>
      rw [stopCluster] at h
      rw [Errorable.err.injEq] at h
      subst h
      exact ⟨strContains_mid4 _ _ _ _, fun e he => by
        cases he
        exact strContains_of_append_right _ _⟩
    | ok u =>
      rw [stopCluster] at h
      refine ⟨?_, fun e he => by cases he⟩
      split at h
      · exact absurd h (by simp)
      · rw [Errorable.err.injEq] at h
        subst h
        exact strContains_of_append _ _ _
  · intro clusterName poolsOutcome msg h
    cases poolsOutcome with
    | error ex =>
      rw [getWindowsNodePoolKubernetesVersions, Errorable.err.injEq] at h
      subst h
      exact ⟨strContains_mid4 _ _ _ _, fun e he => by
        cases he
        exact strContains_of_append_right _ _⟩
    | ok pools =>
      rw [getWindowsNodePoolKubernetesVersions] at h
      exact ⟨windowsVersionsLoop_err_contains clusterName pools msg h,
        fun e he => by cases he⟩
  · intro target parsed credsOutcome msg h
    cases parsed with
    | none =>
      rw [getKubeconfigYaml, Errorable.err.injEq] at h
      subst h
      exact ⟨fun _ => rfl, fun rg n hn => by cases hn⟩
    | some p =>
      refine ⟨?_, ?_⟩
      case _ => intro hn; exact absurd hn (by simp)
      intro rg n hn
      injection hn with hp
      subst hp
      cases credsOutcome with
      | error e =>
        rw [getKubeconfigYaml, Errorable.err.injEq] at h
        subst h
        exact ⟨strContains_mid4 _ _ _ _, fun e' he => by
          cases he
          exact strContains_of_append_right _ _⟩
      | ok kubeconfigs =>
        rw [getKubeconfigYaml] at h
        refine ⟨?_, fun e' he => by cases he⟩
        split at h
        · rw [Errorable.err.injEq] at h
          subst h
          exact strContains_of_append _ _ _
        · split at h
          · rw [Errorable.err.injEq] at h
            subst h
            exact strContains_of_append _ _ _
          · exact absurd h (by simp)

/-- C9 counterexample: the invalid-ARM-id failure of kubeconfig retrieval
carries only the raw ARM id, not the cluster's name — a cluster named
`myverylongclustername` whose tree item carries the malformed ARM id `"z"`
gets the failure message `"Invalid ARM id z"`, which cannot contain the
cluster name (it is shorter than the name). -/
theorem getKubeconfigYaml_invalid_id_cex :
    getKubeconfigYaml ⟨"z", "myverylongclustername"⟩ none (.ok [])
        = .err "Invalid ARM id z" ∧
      ¬ strContains "Invalid ARM id z" "myverylongclustername" := by
  refine ⟨rfl, ?_⟩
  rintro ⟨a, b, hdata⟩
  have hlen := congrArg List.length hdata
  have h1 : ("Invalid ARM id z".data).length = 16 := rfl
  have h2 : ("myverylongclustername".data).length = 21 := rfl
  rw [List.length_append, List.length_append, h1, h2] at hlen
  omega

/-- C9 witness: a concrete failing `determineClusterState` query whose
message contains both the cluster name and the exception text. -/
theorem coreErrorMessages_witness :
    strContains "Error invoking c1 managed cluster: boom" "c1" ∧
      strContains "Error invoking c1 managed cluster: boom" "boom" := by
  have h := coreErrorMessages.1 "c1" (.error "boom")
    "Error invoking c1 managed cluster: boom" rfl
  exact ⟨h.1, h.2 "boom" rfl⟩

/-! ## Theorems: table extractor -/

/-- C5 counterexample: `getJsonPathCol` contains no error handling — on text
that is not valid JSON, the `JSON.parse` `SyntaxError` (the `Except.error`
outcome) is raised and propagates uncaught through `jsonPathTableGetter`
rather than being converted into any structured failure result. -/
theorem getJsonPathCol_invalid_json_cex :
    getJsonPathCol [PathStep.field "items"] "not json"
        = Except.error JsError.parseError ∧
      jsonPathTableGetter [⟨"Name", [PathStep.field "items"], none⟩] "not json"
        = Except.error JsError.parseError :=
  ⟨rfl, rfl⟩

/-- C5 amended: on every text that `JSON.parse` rejects, `getJsonPathCol`
raises exactly the parse exception (it never returns a column); the
exception propagates to the caller because nothing in the pipeline catches
it. -/
theorem getJsonPathCol_parse_failure (jsonPath : List PathStep) (cmdOutput : String)
    (e : JsError) (h : jsonParse cmdOutput = .error e) :
    getJsonPathCol jsonPath cmdOutput = .error e := by
  rw [getJsonPathCol, h]

/-- C5 witness: concrete malformed input. -/
theorem getJsonPathCol_parse_failure_witness :
    getJsonPathCol [] "x" = Except.error JsError.parseError :=
  getJsonPathCol_parse_failure [] "x" JsError.parseError rfl

/-- `obj?.state?.running` is truthy (the `continue` guard of the Status
modifier). -/
def runningTruthy (obj : Json) : Bool :=
  jsOptTruthy (jsonGetPath obj ["state", "running"])

/-- The truthy `obj?.state?.waiting?.reason`, if any — exactly the values
that overwrite the Status accumulator (a falsy reason, e.g. the empty
string, is skipped by `if (reason)`). -/
def truthyWaitingReason (obj : Json) : Option Json :=
  match jsonGetPath obj ["state", "waiting", "reason"] with
  | some reason => if jsTruthy reason then some reason else none
  | none => none

/-- A status object that is running, or whose waiting reason is not truthy,
leaves the accumulator unchanged. -/
theorem statusModifierStep_id (s o : Json)
    (h : runningTruthy o = true ∨ truthyWaitingReason o = none) :
    statusModifierStep s o = s := by
  cases hr : jsOptTruthy (jsonGetPath o ["state", "running"]) with
  | true => simp [statusModifierStep, hr]
  | false =>
    cases hj : jsonGetPath o ["state", "waiting", "reason"] with
    | none => simp [statusModifierStep, hr, hj]
    | some reason =>
      cases ht : jsTruthy reason with
      | false => simp [statusModifierStep, hr, hj, ht]
      | true =>
        simp only [runningTruthy, hr] at h
        simp [truthyWaitingReason, hj, ht] at h

/-- A non-running status object with a truthy waiting reason overwrites the
accumulator with that reason. -/
theorem statusModifierStep_overwrite (s o r : Json)
    (hr : runningTruthy o = false) (hw : truthyWaitingReason o = some r) :
    statusModifierStep s o = r := by
  rw [runningTruthy] at hr
  cases hj : jsonGetPath o ["state", "waiting", "reason"] with
  | none => simp [truthyWaitingReason, hj] at hw
  | some reason =>
    cases ht : jsTruthy reason with
    | false => simp [truthyWaitingReason, hj, ht] at hw
    | true =>
      simp only [truthyWaitingReason, hj, ht, if_pos, Option.some.injEq] at hw
      subst hw
      simp [statusModifierStep, hr, hj, ht]

/-- Folding the Status step over quiet objects keeps the accumulator. -/
theorem statusModifier_foldl_id (s : Json) (l : List Json)
    (h : ∀ o ∈ l, runningTruthy o = true ∨ truthyWaitingReason o = none) :
    List.foldl statusModifierStep s l = s := by
  induction l generalizing s with
  | nil => rfl
  | cons o rest ih =>
    rw [List.foldl_cons, statusModifierStep_id s o (h o (by simp))]
    exact ih s (fun o' ho' => h o' (by simp [ho']))

/-- C8 counterexample: a lone non-running container status whose
`state.waiting.reason` is present but empty.  The claim says the modifier
returns that present reason; the source's `if (reason)` skips falsy reasons,
so the modifier returns `"Running"` instead. -/
theorem statusModifier_present_reason_cex :
    statusModifier
        [Json.obj [("state", Json.obj [("waiting", Json.obj [("reason", Json.str "")])])]]
        = Json.str "Running" ∧
      jsonGetPath
          (Json.obj [("state", Json.obj [("waiting", Json.obj [("reason", Json.str "")])])])
          ["state", "waiting", "reason"] = some (Json.str "") ∧
      runningTruthy
          (Json.obj [("state", Json.obj [("waiting", Json.obj [("reason", Json.str "")])])])
        = false ∧
      Json.str "Running" ≠ Json.str "" := by
  refine ⟨rfl, rfl, rfl, ?_⟩
  simp

/-- C8 amended: the Status modifier returns `"Running"` when no
container-status object has a truthy `state.waiting.reason` while its
`state.running` is not truthy; otherwise it returns the reason of the last
such non-running object in sequence order (sequential overwrite) —
"present" in the claim must be strengthened to "truthy", since the
source's `if (reason)` ignores falsy (e.g. empty-string) reasons. -/
theorem statusModifier_spec :
    (∀ objs : List Json,
        (∀ o ∈ objs, runningTruthy o = true ∨ truthyWaitingReason o = none) →
        statusModifier objs = Json.str "Running") ∧
    (∀ (pre : List Json) (o : Json) (post : List Json) (r : Json),
        runningTruthy o = false → truthyWaitingReason o = some r →
        (∀ o' ∈ post, runningTruthy o' = true ∨ truthyWaitingReason o' = none) →
        statusModifier (pre ++ o :: post) = r) := by
  constructor
  · intro objs h
    exact statusModifier_foldl_id _ objs h
  · intro pre o post r hr hw hpost
    rw [statusModifier, List.foldl_append, List.foldl_cons,
      statusModifierStep_overwrite _ o r hr hw]
    exact statusModifier_foldl_id r post hpost

/-- C8 witness: one waiting container with reason `CrashLoopBackOff`
followed by a running one — the reason survives. -/
theorem statusModifier_spec_witness :
    statusModifier
        [Json.obj [("state", Json.obj [("waiting", Json.obj [("reason", Json.str "CrashLoopBackOff")])])],
         Json.obj [("state", Json.obj [("running", Json.obj [("startedAt", Json.str "t")])])]]
        = Json.str "CrashLoopBackOff" :=
  statusModifier_spec.2 []
    (Json.obj [("state", Json.obj [("waiting", Json.obj [("reason", Json.str "CrashLoopBackOff")])])])
    [Json.obj [("state", Json.obj [("running", Json.obj [("startedAt", Json.str "t")])])]]
    (Json.str "CrashLoopBackOff") rfl rfl
    (by intro o' ho'
        simp only [List.mem_singleton] at ho'
        subst ho'
        exact Or.inl rfl)

/-- Under a successful parse, a column getter returns exactly the pure
column values of the parsed document. -/
theorem colGetter_parse_ok (c : ColSpec) (txt : String) (j : Json)
    (h : jsonParse txt = .ok j) : colGetter c txt = .ok (colValues c j) := by
  cases hm : c.modifier with
  | none => simp [colGetter, hm, getJsonPathCol, h, colValues]
  | some m => simp [colGetter, hm, getJsonPathColWithModifier, getJsonPathCol, h, colValues]

/-- Under a successful parse, the column map returns every column's pure
values. -/
theorem mapColGetters_parse_ok (cols : List ColSpec) (txt : String) (j : Json)
    (h : jsonParse txt = .ok j) :
    mapColGetters cols txt = .ok (cols.map (fun c => colValues c j)) := by
  induction cols with
  | nil => rfl
  | cons c rest ih => simp [mapColGetters, colGetter_parse_ok c txt j h, ih]

/-- Zipping a list with its own image lists the graph of the function. -/
theorem zip_map_self {α β : Type} (l : List α) (f : α → β) :
    l.zip (l.map f) = l.map (fun x => (x, f x)) := by
  induction l with
  | nil => rfl
  | cons x xs ih => simp [ih]

/-- Folding property assignments whose keys are fresh and pairwise distinct
just appends them in order. -/
theorem foldl_objSet_fresh (asgn : List (String × Option String)) :
    ∀ acc : List (String × Option String),
    (asgn.map Prod.fst).Nodup →
    (∀ kv ∈ acc, ∀ k ∈ asgn.map Prod.fst, kv.1 ≠ k) →
    List.foldl (fun rowObj kv => objSet rowObj kv.1 kv.2) acc asgn = acc ++ asgn := by
  induction asgn with
  | nil => intro acc _ _; simp
  | cons kv rest ih =>
    intro acc hnodup hdisj
    rw [List.foldl_cons]
    have hstep : objSet acc kv.1 kv.2 = acc ++ [kv] := by
      rw [objSet, if_neg]
      intro hx
      obtain ⟨x, hxmem, hxeq⟩ := List.any_eq_true.mp hx
      exact hdisj x hxmem kv.1 (by simp) (by simpa using hxeq)
    have hnodup' : (kv.1 :: rest.map Prod.fst).Nodup := by simpa using hnodup
    rw [hstep, ih (acc ++ [kv]) (List.nodup_cons.mp hnodup').2 ?_]
    · simp
    · intro kv' hkv' k hk
      rcases List.mem_append.mp hkv' with hin | hin
      · exact hdisj kv' hin k (by simp [hk])
      · have hkveq : kv' = kv := by simpa using hin
        subst hkveq
        intro he
        rw [← he] at hk
        exact (List.nodup_cons.mp hnodup').1 hk

/-- With pairwise-distinct column names, row construction is just the list
of `(name, stringified cell)` pairs in column order (a cell is `none`
beyond its column's length, where the source stores
`JSON.stringify(undefined)`, i.e. `undefined`). -/
theorem buildRow_nodup (cols : List ColSpec) (colv : ColSpec → List Json) (r : Nat)
    (hnodup : (cols.map ColSpec.name).Nodup) :
    buildRow cols (cols.map colv) r
      = cols.map (fun c => (c.name, ((colv c)[r]?).map stringify)) := by
  rw [buildRow, zip_map_self, List.foldl_map]
  have h4 := foldl_objSet_fresh
    (cols.map (fun c => (c.name, ((colv c)[r]?).map stringify))) []
    (by simpa [List.map_map, Function.comp] using hnodup) (by simp)
  rw [List.foldl_map] at h4
  simpa using h4

/-- Looking a column's name up in a name-keyed image of a nodup column list
yields that column's image. -/
theorem lookup_map_name (cols : List ColSpec) (g : ColSpec → Option String)
    (hnodup : (cols.map ColSpec.name).Nodup) (c : ColSpec) (hc : c ∈ cols) :
    (cols.map (fun col => (col.name, g col))).lookup c.name = some (g c) := by
  induction cols with
  | nil => cases hc
  | cons c0 rest ih =>
    have hnodup' : (c0.name :: rest.map ColSpec.name).Nodup := by simpa using hnodup
    rcases List.mem_cons.mp hc with rfl | hc'
    · simp [List.lookup]
    · have hne : (c.name == c0.name) = false := by
        rw [beq_eq_false_iff_ne]
        intro he
        have hmem : c.name ∈ rest.map ColSpec.name := List.mem_map_of_mem _ hc'
        rw [he] at hmem
        exact (List.nodup_cons.mp hnodup').1 hmem
      simp only [List.map_cons, List.lookup, hne]
      exact ih (List.nodup_cons.mp hnodup').2 hc'

/-- The row count used by `jsonPathTableGetter`: `columns[0]?.length`,
with JavaScript's `undefined < n` comparison making it `0` when there is no
first column. -/
def firstColLength (columns : List (List Json)) : Nat :=
  match columns with
  | [] => 0
  | c0 :: _ => c0.length

/-- Characterization of `jsonPathTableGetter` under a successful parse and
pairwise-distinct column names: the row count is driven by the first
column, headers are the names in order, and every row maps each column name
to the stringified cell of that column (`none` past the column's end). -/
theorem jsonPathTableGetter_char (cols : List ColSpec) (txt : String) (j : Json)
    (hparse : jsonParse txt = .ok j)
    (hnodup : (cols.map ColSpec.name).Nodup) :
    ∃ t, jsonPathTableGetter cols txt = .ok t ∧
      t.table.length = firstColLength (cols.map (fun c => colValues c j)) ∧
      t.headers = cols.map ColSpec.name ∧
      ∀ c ∈ cols, ∀ (r : Nat) (row : List (String × Option String)),
        t.table[r]? = some row →
        row.lookup c.name = some (((colValues c j)[r]?).map stringify) := by
  have hmc := mapColGetters_parse_ok cols txt j hparse
  have htab : jsonPathTableGetter cols txt = .ok
      (ITable.mk
        ((List.range (firstColLength (cols.map (fun c => colValues c j)))).map
          (buildRow cols (cols.map (fun c => colValues c j))))
        (cols.map (fun col => col.name))) := by
    rw [jsonPathTableGetter, hmc]
    rfl
  refine ⟨_, htab, ?_, rfl, ?_⟩
  · simp
  · intro c hc r row hrow
    simp only [List.getElem?_map] at hrow
    rcases hr : (List.range
        (firstColLength (cols.map (fun c => colValues c j))))[r]? with _ | ri
    · rw [hr] at hrow
      cases hrow
    · rw [hr] at hrow
      have hlt : r < firstColLength (cols.map (fun c => colValues c j)) := by
        by_contra hge
        rw [List.getElem?_eq_none (by simpa using Nat.le_of_not_lt hge)] at hr
        cases hr
      rw [List.getElem?_range hlt] at hr
      injection hr with hr
      subst hr
      injection hrow with hrow
      subst hrow
      rw [buildRow_nodup cols (fun c => colValues c j) r hnodup]
      exact lookup_map_name cols (fun col => ((colValues col j)[r]?).map stringify) hnodup c hc

/-- C3: for every table specification (with pairwise-distinct column names,
which every table in the source has) and every JSON text the parser accepts,
`jsonPathTableGetter` produces exactly as many rows as the first column's
extracted value sequence has entries, its header sequence is the column
names in specification order, and each row maps a column's name to the
`JSON.stringify` of that column's value at the row index whenever the index
is within that column's bounds. -/
theorem buildTable_first_col_spec (c0 : ColSpec) (rest : List ColSpec)
    (txt : String) (j : Json)
    (hparse : jsonParse txt = .ok j)
    (hnodup : ((c0 :: rest).map ColSpec.name).Nodup) :
    ∃ t, jsonPathTableGetter (c0 :: rest) txt = .ok t ∧
      t.table.length = (colValues c0 j).length ∧
      t.headers = (c0 :: rest).map ColSpec.name ∧
      ∀ c ∈ c0 :: rest, ∀ (r : Nat) (row : List (String × Option String)) (v : Json),
        t.table[r]? = some row → (colValues c j)[r]? = some v →
        row.lookup c.name = some (some (stringify v)) := by
  obtain ⟨t, h1, h2, h3, h4⟩ := jsonPathTableGetter_char (c0 :: rest) txt j hparse hnodup
  refine ⟨t, h1, ?_, h3, ?_⟩
  · rw [h2]
    rfl
  · intro c hc r row v hrow hv
    rw [h4 c hc r row hrow, hv]
    rfl

/-- C3 witness: a two-column table over a concrete two-pod document. -/
theorem buildTable_first_col_spec_witness :
    ∃ t, jsonPathTableGetter
        [ColSpec.mk "Name" [PathStep.field "items", PathStep.wildcard,
            PathStep.field "metadata", PathStep.field "name"] none,
         ColSpec.mk "Kind" [PathStep.field "kind"] none]
        "\x7b\"kind\":\"List\",\"items\":[\x7b\"metadata\":\x7b\"name\":\"a\"\x7d\x7d,\x7b\"metadata\":\x7b\"name\":\"b\"\x7d\x7d]\x7d"
        = .ok t ∧
      t.table.length = (colValues
        (ColSpec.mk "Name" [PathStep.field "items", PathStep.wildcard,
            PathStep.field "metadata", PathStep.field "name"] none)
        (Json.obj [("kind", Json.str "List"),
          ("items", Json.arr
            [Json.obj [("metadata", Json.obj [("name", Json.str "a")])],
             Json.obj [("metadata", Json.obj [("name", Json.str "b")])]])])).length ∧
      t.headers = [ColSpec.mk "Name" [PathStep.field "items", PathStep.wildcard,
            PathStep.field "metadata", PathStep.field "name"] none,
          ColSpec.mk "Kind" [PathStep.field "kind"] none].map ColSpec.name ∧
      ∀ c ∈ [ColSpec.mk "Name" [PathStep.field "items", PathStep.wildcard,
            PathStep.field "metadata", PathStep.field "name"] none,
          ColSpec.mk "Kind" [PathStep.field "kind"] none],
        ∀ (r : Nat) (row : List (String × Option String)) (v : Json),
        t.table[r]? = some row →
        (colValues c (Json.obj [("kind", Json.str "List"),
          ("items", Json.arr
            [Json.obj [("metadata", Json.obj [("name", Json.str "a")])],
             Json.obj [("metadata", Json.obj [("name", Json.str "b")])]])]))[r]? = some v →
        row.lookup c.name = some (some (stringify v)) :=
  buildTable_first_col_spec
    (ColSpec.mk "Name" [PathStep.field "items", PathStep.wildcard,
        PathStep.field "metadata", PathStep.field "name"] none)
    [ColSpec.mk "Kind" [PathStep.field "kind"] none]
    "\x7b\"kind\":\"List\",\"items\":[\x7b\"metadata\":\x7b\"name\":\"a\"\x7d\x7d,\x7b\"metadata\":\x7b\"name\":\"b\"\x7d\x7d]\x7d"
    (Json.obj [("kind", Json.str "List"),
      ("items", Json.arr
        [Json.obj [("metadata", Json.obj [("name", Json.str "a")])],
         Json.obj [("metadata", Json.obj [("name", Json.str "b")])]])])
    rfl (by simp)

/-- C4 counterexample: with a first column of length 2 and a second column
of length 3, `jsonPathTableGetter` produces 2 rows — the row count follows
`columns[0].length`, not the longest column. -/
theorem buildTable_longest_col_cex :
    (jsonPathTableGetter
        [ColSpec.mk "A" [PathStep.field "a", PathStep.wildcard] none,
         ColSpec.mk "B" [PathStep.field "b", PathStep.wildcard] none]
        "\x7b\"a\":[1,2],\"b\":[1,2,3]\x7d").map (fun t => t.table.length)
      = .ok 2 ∧
    (jsonParse "\x7b\"a\":[1,2],\"b\":[1,2,3]\x7d").map
        (fun j => (colValues
          (ColSpec.mk "B" [PathStep.field "b", PathStep.wildcard] none) j).length)
      = .ok 3 ∧
    (2 : Nat) ≠ 3 :=
  ⟨rfl, rfl, by decide⟩

/-- C4 amended: the row count equals the length of the *first* column's
value sequence (not the longest column's); a column shorter than the first
yields the absent value (`JSON.stringify(undefined)`, i.e. `undefined`) for
each trailing row index at or beyond its own length. -/
theorem buildTable_rowcount_first_col (c0 : ColSpec) (rest : List ColSpec)
    (txt : String) (j : Json)
    (hparse : jsonParse txt = .ok j)
    (hnodup : ((c0 :: rest).map ColSpec.name).Nodup) :
    ∃ t, jsonPathTableGetter (c0 :: rest) txt = .ok t ∧
      t.table.length = (colValues c0 j).length ∧
      ∀ c ∈ c0 :: rest, ∀ (r : Nat) (row : List (String × Option String)),
        t.table[r]? = some row → (colValues c j).length ≤ r →
        row.lookup c.name = some none := by
  obtain ⟨t, h1, h2, _, h4⟩ := jsonPathTableGetter_char (c0 :: rest) txt j hparse hnodup
  refine ⟨t, h1, ?_, ?_⟩
  · rw [h2]
    rfl
  · intro c hc r row hrow hle
    rw [h4 c hc r row hrow, List.getElem?_eq_none hle]
    rfl

/-- C4 witness: the 2-column/3-column table again — rows follow the first
column, and column `B`'s cell at any row index past its length is absent. -/
theorem buildTable_rowcount_first_col_witness :
    ∃ t, jsonPathTableGetter
        [ColSpec.mk "A" [PathStep.field "a", PathStep.wildcard] none,
         ColSpec.mk "C" [PathStep.field "c", PathStep.wildcard] none]
        "\x7b\"a\":[1,2],\"c\":[7]\x7d"
        = .ok t ∧
      t.table.length = (colValues
        (ColSpec.mk "A" [PathStep.field "a", PathStep.wildcard] none)
        (Json.obj [("a", Json.arr [Json.num 1, Json.num 2]),
          ("c", Json.arr [Json.num 7])])).length ∧
      ∀ c ∈ [ColSpec.mk "A" [PathStep.field "a", PathStep.wildcard] none,
          ColSpec.mk "C" [PathStep.field "c", PathStep.wildcard] none],
        ∀ (r : Nat) (row : List (String × Option String)),
        t.table[r]? = some row →
        (colValues c (Json.obj [("a", Json.arr [Json.num 1, Json.num 2]),
          ("c", Json.arr [Json.num 7])])).length ≤ r →
        row.lookup c.name = some none :=
  buildTable_rowcount_first_col
    (ColSpec.mk "A" [PathStep.field "a", PathStep.wildcard] none)
    [ColSpec.mk "C" [PathStep.field "c", PathStep.wildcard] none]
    "\x7b\"a\":[1,2],\"c\":[7]\x7d"
    (Json.obj [("a", Json.arr [Json.num 1, Json.num 2]),
      ("c", Json.arr [Json.num 7])])
    rfl (by simp)
